import Mathlib

/-!
Shallow embedding of the Qt front-end `MainWindow` of the salesStatTool
(extended variant): the file-set table, the debounced and
confirmation-gated mode toggle, the worker-process lifecycle, and the
line-oriented stdout status protocol.  Each definition translates one
source function; widget-enabling side effects (`setEnabled`,
scrollbars, header labels) carry no claim-relevant state and are not
modelled.
-/

/-- Characters of a `QString`, modelled as a list of characters. -/
abbrev Str := List Char

/-- Shorthand turning a string literal into the `Str` model. -/
def toL (s : String) : Str := s.toList

/-- `QString::split(sep)` with the default `KeepEmptyParts` behaviour,
on the character-list model. -/
def splitOnChar (c : Char) : Str → List Str
  | [] => [[]]
  | x :: xs =>
    let r := splitOnChar c xs
    if x = c then [] :: r else (x :: r.headD []) :: r.tail

/-- `QString::split(sep, Qt::SkipEmptyParts)`: split, dropping empty parts. -/
def splitSkipEmpty (c : Char) (s : Str) : List Str :=
  (splitOnChar c s).filter (fun part => decide (part ≠ []))

/-- `QString::startsWith(pat)`. -/
def strStartsWith (pat s : Str) : Bool :=
  match pat, s with
  | [], _ => true
  | _ :: _, [] => false
  | p :: ps, x :: xs => decide (p = x) && strStartsWith ps xs

/-- Substring test (as in `QString::contains`), used to relate dialog
texts to executable names. -/
def strContains (hay needle : Str) : Bool :=
  match hay with
  | [] => decide (needle = [])
  | _ :: rest => strStartsWith needle hay || strContains rest needle

/-- `QFileInfo(path).fileName()`: the component after the last slash. -/
def fileNameOf (p : Str) : Str := (splitOnChar '/' p).getLastD []

/-- One row of `fileListTableWidget`: column 0 holds the check box,
column 1 the status item (text plus tooltip), column 2 the file name,
column 3 the full path. -/
structure Row where
  checked : Bool
  statusText : Str
  statusTip : Str
  fname : Str
  path : Str
deriving DecidableEq

/-- Default row used with `List.getD` when indexing rows. -/
def dRow : Row := ⟨false, [], [], [], []⟩

/-- The claim-relevant state of `MainWindow`: the table rows, the
internal path list `m_fileList`, the log pane, the status bar, the
processing flag, the process handle and its stashed task list, and the
persisted options.  `timerStart` is the instant (ms) at which
`m_modeChangeDebounceTimer` was last started or restarted; the
constructor starts it, so a fresh window has `timerStart = 0`. -/
structure AppState where
  isDirectoryMode : Bool
  rows : List Row
  fileList : List Str
  logText : Str
  statusBarMsg : Str
  isProcessing : Bool
  processAlive : Bool
  pendingTasks : List Str
  dontAskOnModeChange : Bool
  outputToSource : Bool
  outputPath : Str
  inputDirPath : Str
  conflictIndex : Nat
  timerStart : Nat
deriving DecidableEq

/-- Environment oracle for the file system: whether a directory exists
and which `*.csv` / `*.xlsx` files a recursive `QDirIterator` yields
under it, in traversal order. -/
structure Fs where
  dirExists : Str → Bool
  scanFiles : Str → List Str

/-- Externally visible actions emitted by the handlers: dialogs, process
spawning, writes to the worker's stdin, closing the write channel, and
killing the process. -/
inductive UiAction where
  | showWarning (title text : Str)
  | showCritical (title text : Str)
  | spawnProcess (program : Str) (args : List Str)
  | writeStdin (data : Str)
  | closeWriteChannel
  | killProcess
deriving DecidableEq

/-- `QProcess::ProcessError` values. -/
inductive ProcErr where
  | failedToStart
  | crashed
  | timedout
  | writeError
  | readError
  | unknownError
deriving DecidableEq

/-- Status text of a freshly added row. -/
def pendingText : Str := toL "待处理"

/-- Status text written by a `PROCESSING` record. -/
def processingText : Str := toL "正在处理..."

/-- Status text forced onto still-processing rows on cancellation. -/
def cancelledText : Str := toL "已取消"

/-- `MainWindow::addFileToList`: no-op if the path is already in
`m_fileList`; otherwise append the path and a new checked, pending row. -/
def addFileToList (s : AppState) (filePath : Str) : AppState :=
  if filePath ∈ s.fileList then s
  else
    { s with
      fileList := s.fileList ++ [filePath],
      rows := s.rows ++ [{ checked := true, statusText := pendingText,
                           statusTip := [], fname := fileNameOf filePath,
                           path := filePath }] }

/-- `MainWindow::scanAndPopulateFiles`: clear both the list and the
table; if the directory path is non-empty and exists, re-add every file
the recursive iterator yields. -/
def scanAndPopulateFiles (s : AppState) (fs : Fs) (dirPath : Str) : AppState :=
  if dirPath = [] ∨ fs.dirExists dirPath = false then
    { s with fileList := [], rows := [] }
  else
    (fs.scanFiles dirPath).foldl addFileToList { s with fileList := [], rows := [] }

/-- `QList::removeAll(p)` on `m_fileList`. -/
def removeAllPaths (l : List Str) (p : Str) : List Str :=
  l.filter (fun x => decide (x ≠ p))

/-- The backwards row loop of `MainWindow::on_removeSelectedButton_clicked`:
rows are visited from the last index down to 0; a checked row is removed
from the table and its path removed (all occurrences) from `m_fileList`. -/
def removeLoop : List Row → List Str → List Row × List Str
  | [], fl => ([], fl)
  | r :: rest, fl =>
    let p := removeLoop rest fl
    if r.checked then (p.1, removeAllPaths p.2 r.path)
    else (r :: p.1, p.2)

/-- `MainWindow::on_removeSelectedButton_clicked`. -/
def onRemoveSelectedClicked (s : AppState) : AppState :=
  let p := removeLoop s.rows s.fileList
  { s with rows := p.1, fileList := p.2 }

/-- `MainWindow::on_selectAllButton_clicked`: if any row is unchecked the
target is all-checked, otherwise all-unchecked. -/
def onSelectAllClicked (s : AppState) : AppState :=
  let shouldSelectAll := s.rows.any (fun r => !r.checked)
  { s with rows := s.rows.map (fun r => { r with checked := shouldSelectAll }) }

/-- `MainWindow::on_invertSelectionButton_clicked`. -/
def onInvertSelectionClicked (s : AppState) : AppState :=
  { s with rows := s.rows.map (fun r => { r with checked := !r.checked }) }

/-- The accepted-switch tail of `MainWindow::handleModeChangeRequest`:
set the check box, clear `m_fileList` and the table, and in directory
mode scan the configured input directory. -/
def doModeSwitch (s : AppState) (fs : Fs) (intended : Bool) : AppState :=
  let s1 := { s with isDirectoryMode := intended, fileList := [], rows := [] }
  if intended then scanAndPopulateFiles s1 fs s1.inputDirPath else s1

/-- `MainWindow::handleModeChangeRequest`, with the debounce clock made
explicit: `now` is the current instant in ms, `m_modeChangeDebounceTimer.elapsed()`
is `now - timerStart`, and `restart()` sets `timerStart := now`.
`userSaysYes` is the user's answer to the blocking confirmation,
`dontAskChecked` the state of its embedded check box.  The returned
`Bool` records whether the confirmation dialog was shown. -/
def handleModeChangeRequest (s : AppState) (fs : Fs) (now : Nat)
    (userSaysYes dontAskChecked : Bool) : AppState × Bool :=
  if now - s.timerStart < 300 then (s, false)
  else
    let s1 := { s with timerStart := now }
    let intended := !s1.isDirectoryMode
    if s1.rows.length = 0 then
      let s2 := { s1 with isDirectoryMode := intended }
      (if intended then scanAndPopulateFiles s2 fs s2.inputDirPath else s2, false)
    else if !s1.dontAskOnModeChange then
      if !userSaysYes then (s1, true)
      else
        let s2 := if dontAskChecked then { s1 with dontAskOnModeChange := true } else s1
        (doModeSwitch s2 fs intended, true)
    else
      (doModeSwitch s1 fs intended, false)

/-- The conflict-policy argument computed from the combo-box index. -/
def conflictPolicyArg (idx : Nat) : Str :=
  match idx with
  | 0 => toL "rename"
  | 1 => toL "overwrite"
  | 2 => toL "skip"
  | _ => toL "skip"

/-- The program path handed to `QProcess::start`. -/
def programPath (appDir : Str) : Str :=
  appDir ++ toL "/backend_engine/backend_engine.exe"

/-- The checked tasks gathered at the top of the start handler: the
paths (column 3) of the rows whose check box is checked, in row order. -/
def checkedTasks (s : AppState) : List Str :=
  (s.rows.filter (fun r => r.checked)).map (fun r => r.path)

/-- `MainWindow::on_startProcessButton_clicked`.  While processing the
button kills the process; otherwise the checked tasks are collected and
validated, and on success the UI is locked, the log reset, the task list
stashed on the process object, and the backend spawned. -/
def on_startProcessButton_clicked (s : AppState) (appDir : Str) :
    AppState × List UiAction :=
  if s.isProcessing then
    (s, if s.processAlive then [UiAction.killProcess] else [])
  else
    let tasks := checkedTasks s
    if tasks = [] then
      (s, [UiAction.showWarning (toL "没有任务") (toL "请至少勾选一个要处理的文件！")])
    else if s.outputToSource = false ∧ s.outputPath = [] then
      (s, [UiAction.showWarning (toL "输出未指定")
            (toL "请指定一个输出文件夹，或勾选“输出到源文件路径”！")])
    else
      let args := [toL "--on-conflict", conflictPolicyArg s.conflictIndex]
        ++ (if s.outputToSource then [] else [toL "--output-dir", s.outputPath])
      ({ s with isProcessing := true,
                logText := toL "--- 开始处理 ---" ++ ['\n'],
                processAlive := true,
                pendingTasks := tasks },
       [UiAction.spawnProcess (programPath appDir) args])

/-- The byte string built in `MainWindow::onProcessStarted`: for each
task, its UTF-8 text followed by a newline, accumulated in order. -/
def taskListData (tasks : List Str) : Str :=
  tasks.foldl (fun acc t => acc ++ t ++ ['\n']) []

/-- `MainWindow::onProcessStarted`: if the stashed task list is
non-empty, write it to the worker's stdin and close the write channel. -/
def onProcessStarted (s : AppState) : AppState × List UiAction :=
  if s.pendingTasks = [] then (s, [])
  else (s, [UiAction.writeStdin (taskListData s.pendingTasks),
            UiAction.closeWriteChannel])

/-- `MainWindow::onProcessFinished`: report cancelled / succeeded /
failed, force still-processing rows to cancelled on a crash exit, then
unlock the UI and release the process handle. -/
def onProcessFinished (s : AppState) (exitCode : Int) (crashExit : Bool) :
    AppState :=
  let s1 :=
    if crashExit then
      { s with statusBarMsg := toL "处理已由用户取消。",
               logText := s.logText ++ toL "\n--- 处理已取消 ---" ++ ['\n'],
               rows := s.rows.map (fun r =>
                 if r.statusText = processingText then
                   { r with statusText := cancelledText } else r) }
    else if exitCode = 0 then
      { s with statusBarMsg := toL "处理成功！",
               logText := s.logText ++ toL "\n--- 处理成功！ ---" ++ ['\n'] }
    else
      { s with statusBarMsg := toL "处理失败！详情见日志区。",
               logText := s.logText ++ toL "\n--- 处理失败！ ---" ++ ['\n']
                 ++ toL "后端进程异常退出，错误码: " ++ toL (toString exitCode)
                 ++ ['\n'] }
  { s1 with isProcessing := false, processAlive := false }

/-- The text of the launch-failure dialog in `MainWindow::onProcessError`. -/
def launchFailText : Str :=
  toL "无法启动后端引擎。\n请检查程序目录下 \x27backend_engine\x27 文件夹及其中的 \x27main_processor.exe\x27 是否存在。"

/-- `MainWindow::onProcessError`: only `FailedToStart` (with a live
process handle) acts — blocking critical dialog, UI unlock, handle
release; every other error value does nothing. -/
def onProcessError (s : AppState) (err : ProcErr) : AppState × List UiAction :=
  if err = ProcErr.failedToStart ∧ s.processAlive = true then
    ({ s with isProcessing := false, processAlive := false },
     [UiAction.showCritical (toL "启动失败") launchFailText])
  else (s, [])

/-- The literal protocol marker `##STATUS##|`. -/
def statusMarker : Str := toL "##STATUS##|"

/-- The status-code-to-display-text mapping inside
`MainWindow::findAndUpdatetTableRow` (unknown codes shown verbatim). -/
def statusDisplayText (status : Str) : Str :=
  if status = toL "PROCESSING" then processingText
  else if status = toL "SUCCESS" then toL "处理完成"
  else if status = toL "FAILURE" then toL "处理失败"
  else if status = toL "SKIPPED" then toL "已跳过"
  else if status = toL "UNIDENTIFIED" then toL "未知平台"
  else status

/-- `MainWindow::findAndUpdatetTableRow` (source spelling kept): linear
scan for the first row whose path matches; update its status text and
tooltip and stop.  No match: no change. -/
def findAndUpdatetTableRow (rows : List Row) (filePath status message : Str) :
    List Row :=
  match rows with
  | [] => []
  | r :: rest =>
    if r.path = filePath then
      { r with statusText := statusDisplayText status, statusTip := message } :: rest
    else r :: findAndUpdatetTableRow rest filePath status message

/-- One line of the loop body in `MainWindow::readProcessOutput`: a line
starting with the marker and splitting into at least four pipe-separated
parts updates the table; a marker line with fewer parts does nothing;
any other line is inserted into the log followed by a newline. -/
def processOutputLine (s : AppState) (line : Str) : AppState :=
  if strStartsWith statusMarker line then
    let parts := splitOnChar '|' line
    if 4 ≤ parts.length then
      { s with rows := findAndUpdatetTableRow s.rows (parts.getD 1 [])
                         (parts.getD 2 []) (parts.getD 3 []) }
    else s
  else { s with logText := s.logText ++ line ++ ['\n'] }

/-- `MainWindow::readProcessOutput` on one delivered chunk: decode,
split on newlines skipping empty parts, and process each line. -/
def readProcessOutput (s : AppState) (data : Str) : AppState :=
  (splitSkipEmpty '\n' data).foldl processOutputLine s

/-- Successive readiness notifications: the chunks delivered by the
worker are processed one `readProcessOutput` call each. -/
def readProcessOutputChunks (s : AppState) (chunks : List Str) : AppState :=
  chunks.foldl readProcessOutput s

/-- The file-set operations reachable from the UI, used to state
set-wide invariants: adding a path (file dialog, drag-drop, or scan
item), removing the checked rows, bulk selection changes, a directory
scan, an accepted or declined mode switch, and a protocol status update. -/
inductive FileOp where
  | add (path : Str)
  | removeSelected
  | selectAll
  | invertSelection
  | scanDir (dirPath : Str)
  | modeSwitch (now : Nat) (userSaysYes dontAskChecked : Bool)
  | statusUpdate (p st m : Str)

/-- Interpretation of one `FileOp` by the corresponding handler. -/
def applyFileOp (fs : Fs) (s : AppState) : FileOp → AppState
  | FileOp.add p => addFileToList s p
  | FileOp.removeSelected => onRemoveSelectedClicked s
  | FileOp.selectAll => onSelectAllClicked s
  | FileOp.invertSelection => onInvertSelectionClicked s
  | FileOp.scanDir d => scanAndPopulateFiles s fs d
  | FileOp.modeSwitch now y d => (handleModeChangeRequest s fs now y d).1
  | FileOp.statusUpdate p st m =>
      { s with rows := findAndUpdatetTableRow s.rows p st m }

/-- A whole user session on the file set: folding the operations. -/
def applyFileOps (fs : Fs) (s : AppState) (ops : List FileOp) : AppState :=
  ops.foldl (applyFileOp fs) s

/-- Representation invariant tying `m_fileList` to column 3 of the
table: the path list equals the rows' path column in order, and carries
no duplicates. -/
def TableInv (s : AppState) : Prop :=
  s.fileList = s.rows.map (fun r => r.path) ∧ s.fileList.Nodup

instance (s : AppState) : Decidable (TableInv s) := by
  unfold TableInv
  infer_instance

/-! Helper lemmas about the split functions. -/

theorem splitOnChar_cons_eq (c x : Char) (xs : Str) :
    splitOnChar c (x :: xs) =
      if x = c then [] :: splitOnChar c xs
      else (x :: (splitOnChar c xs).headD []) :: (splitOnChar c xs).tail := rfl

theorem splitOnChar_ne_nil (c : Char) (l : Str) : splitOnChar c l ≠ [] := by
  cases l with
  | nil => simp [splitOnChar]
  | cons x xs =>
    rw [splitOnChar_cons_eq]
    split <;> simp

theorem splitOnChar_exists_cons (c : Char) (l : Str) :
    ∃ a r, splitOnChar c l = a :: r := by
  cases hsp : splitOnChar c l with
  | nil => exact absurd hsp (splitOnChar_ne_nil c l)
  | cons a r => exact ⟨a, r, rfl⟩

theorem splitOnChar_of_not_mem {c : Char} {l : Str} (h : c ∉ l) :
    splitOnChar c l = [l] := by
  induction l with
  | nil => rfl
  | cons x xs ih =>
    have hx : x ≠ c := fun hxc => h (hxc ▸ List.mem_cons_self x xs)
    have hxs : c ∉ xs := fun hm => h (List.mem_cons_of_mem x hm)
    rw [splitOnChar_cons_eq, ih hxs]
    simp [hx]

theorem splitOnChar_append_single {c : Char} {l : Str} (h : c ∉ l) :
    splitOnChar c (l ++ [c]) = [l, []] := by
  induction l with
  | nil => simp [splitOnChar]
  | cons x xs ih =>
    have hx : x ≠ c := fun hxc => h (hxc ▸ List.mem_cons_self x xs)
    have hxs : c ∉ xs := fun hm => h (List.mem_cons_of_mem x hm)
    rw [List.cons_append, splitOnChar_cons_eq, ih hxs]
    simp [hx]

theorem splitOnChar_length_ge_two {c : Char} {l : Str}
    (h : l.getLast? = some c) : 2 ≤ (splitOnChar c l).length := by
  induction l with
  | nil => simp at h
  | cons x xs ih =>
    cases xs with
    | nil =>
      simp only [List.getLast?_singleton, Option.some.injEq] at h
      subst h
      simp [splitOnChar]
    | cons y ys =>
      rw [List.getLast?_cons_cons] at h
      have h2 := ih h
      obtain ⟨a, r, hr⟩ := splitOnChar_exists_cons c (y :: ys)
      rw [hr] at h2
      simp only [List.length_cons] at h2
      rw [splitOnChar_cons_eq, hr]
      split <;> simp
      omega

theorem splitOnChar_getLast?_of_getLast? {c : Char} {l : Str}
    (h : l.getLast? = some c) : (splitOnChar c l).getLast? = some [] := by
  induction l with
  | nil => simp at h
  | cons x xs ih =>
    cases xs with
    | nil =>
      simp only [List.getLast?_singleton, Option.some.injEq] at h
      subst h
      simp [splitOnChar]
    | cons y ys =>
      rw [List.getLast?_cons_cons] at h
      have h2 := ih h
      have hlen := splitOnChar_length_ge_two h
      obtain ⟨a, r, hr⟩ := splitOnChar_exists_cons c (y :: ys)
      rw [hr] at h2 hlen
      simp only [List.length_cons] at hlen
      obtain ⟨b, t, hbt⟩ : ∃ b t, r = b :: t := by
        cases r with
        | nil => simp at hlen
        | cons b t => exact ⟨b, t, rfl⟩
      subst hbt
      rw [splitOnChar_cons_eq, hr]
      split
    
      · rw [List.getLast?_cons_cons]
        exact h2
      · simp only [List.headD_cons, List.tail_cons]
        rw [List.getLast?_cons_cons] at h2 ⊢
        exact h2

theorem splitOnChar_append_of_getLast? {c : Char} {l : Str}
    (h : l.getLast? = some c) (ys : Str) :
    splitOnChar c (l ++ ys) = (splitOnChar c l).dropLast ++ splitOnChar c ys := by
  induction l with
  | nil => simp at h
  | cons x xs ih =>
    cases xs with
    | nil =>
      simp only [List.getLast?_singleton, Option.some.injEq] at h
      subst h
      simp [splitOnChar]
    | cons y ys2 =>
      rw [List.getLast?_cons_cons] at h
      have hlen := splitOnChar_length_ge_two h
      obtain ⟨a, r, hr⟩ := splitOnChar_exists_cons c (y :: ys2)
      rw [hr] at hlen
      simp only [List.length_cons] at hlen
      obtain ⟨b, t, hbt⟩ : ∃ b t, r = b :: t := by
        cases r with
        | nil => simp at hlen
        | cons b t => exact ⟨b, t, rfl⟩
      subst hbt
      have ihh := ih h
      rw [hr] at ihh
      rw [List.cons_append, splitOnChar_cons_eq, ihh,
        splitOnChar_cons_eq, hr]
      simp only [List.dropLast_cons₂]
      split
      · rfl
      · simp

theorem splitSkipEmpty_append {c : Char} {l : Str}
    (h : l.getLast? = some c) (ys : Str) :
    splitSkipEmpty c (l ++ ys) = splitSkipEmpty c l ++ splitSkipEmpty c ys := by
  have h2 : splitOnChar c l ≠ [] := splitOnChar_ne_nil c l
  have hsplit : splitOnChar c l = (splitOnChar c l).dropLast ++ [[]] := by
    have h1 : (splitOnChar c l).getLast? = some [] :=
      splitOnChar_getLast?_of_getLast? h
    have h3 := List.dropLast_append_getLast h2
    rw [List.getLast?_eq_getLast _ h2] at h1
    simp only [Option.some.injEq] at h1
    rw [h1] at h3
    exact h3.symm
  unfold splitSkipEmpty
  rw [splitOnChar_append_of_getLast? h ys, List.filter_append]
  conv_rhs => rw [hsplit]
  simp [List.filter_append]

theorem readProcessOutput_append {s : AppState} {a : Str}
    (h : a.getLast? = some '\n') (b : Str) :
    readProcessOutput s (a ++ b) = readProcessOutput (readProcessOutput s a) b := by
  unfold readProcessOutput
  rw [splitSkipEmpty_append h b, List.foldl_append]

theorem splitSkipEmpty_single_line {line : Str} (h1 : line ≠ [])
    (h2 : '\n' ∉ line) :
    splitSkipEmpty '\n' (line ++ ['\n']) = [line] := by
  unfold splitSkipEmpty
  rw [splitOnChar_append_single h2]
  simp [h1]

/-! Helper lemmas about `findAndUpdatetTableRow`. -/

theorem findAndUpdatetTableRow_map_path (rows : List Row) (fp st m : Str) :
    (findAndUpdatetTableRow rows fp st m).map (fun r => r.path)
      = rows.map (fun r => r.path) := by
  induction rows with
  | nil => rfl
  | cons r rest ih =>
    unfold findAndUpdatetTableRow
    split
    · simp
    · simpa using ih

theorem findAndUpdatetTableRow_length (rows : List Row) (fp st m : Str) :
    (findAndUpdatetTableRow rows fp st m).length = rows.length := by
  have h := findAndUpdatetTableRow_map_path rows fp st m
  have h1 := congrArg List.length h
  simpa using h1

theorem findAndUpdatetTableRow_no_match {rows : List Row} {fp : Str}
    (h : ∀ r ∈ rows, r.path ≠ fp) (st m : Str) :
    findAndUpdatetTableRow rows fp st m = rows := by
  induction rows with
  | nil => rfl
  | cons r rest ih =>
    unfold findAndUpdatetTableRow
    have hr : r.path ≠ fp := h r (List.mem_cons_self r rest)
    rw [if_neg hr, ih (fun x hx => h x (List.mem_cons_of_mem r hx))]

theorem findAndUpdatetTableRow_first_match {pre : List Row} {r : Row}
    {fp : Str} (hpre : ∀ x ∈ pre, x.path ≠ fp) (hr : r.path = fp)
    (post : List Row) (st m : Str) :
    findAndUpdatetTableRow (pre ++ r :: post) fp st m
      = pre ++ { r with statusText := statusDisplayText st,
                        statusTip := m } :: post := by
  induction pre with
  | nil =>
    simp only [List.nil_append]
    unfold findAndUpdatetTableRow
    rw [if_pos hr]
  | cons x xs ih =>
    have hx : x.path ≠ fp := hpre x (List.mem_cons_self x xs)
    simp only [List.cons_append]
    unfold findAndUpdatetTableRow
    rw [if_neg hx, ih (fun y hy => hpre y (List.mem_cons_of_mem x hy))]

/-! Sample states used to instantiate theorems at concrete inputs. -/

/-- A freshly constructed window with everything empty. -/
def mwEmpty : AppState :=
  { isDirectoryMode := false, rows := [], fileList := [], logText := [],
    statusBarMsg := [], isProcessing := false, processAlive := false,
    pendingTasks := [], dontAskOnModeChange := false, outputToSource := false,
    outputPath := [], inputDirPath := [], conflictIndex := 2, timerStart := 0 }

/-- A pending row for the path `/a/b.csv`. -/
def rowP : Row :=
  { checked := true, statusText := pendingText, statusTip := [],
    fname := toL "b.csv", path := toL "/a/b.csv" }

/-- A window holding exactly the row for `/a/b.csv`. -/
def mwOneRow : AppState :=
  { mwEmpty with rows := [rowP], fileList := [toL "/a/b.csv"] }

/-- A file-system oracle in which no directory exists. -/
def fsNone : Fs := { dirExists := fun _ => false, scanFiles := fun _ => [] }

/-- C1, amended: for a whole delivered line, `readProcessOutput` updates
the table and nothing else when the line carries the `##STATUS##|` marker
and splits into at least four pipe-separated parts (fields beyond the
third are ignored); a marker line with fewer parts is silently discarded
— neither logged nor applied; a line without the marker is appended
verbatim (plus newline) to the visible log and changes no row.  The last
two conjuncts give the update semantics: a record whose path matches no
row changes nothing, and one matching a row updates the first matching
row's status text and tooltip, leaving every other row unchanged. -/
theorem c1_protocol_dispatch (s : AppState) (line : Str) (hne : line ≠ [])
    (hnl : '\n' ∉ line) :
    (strStartsWith statusMarker line = true →
      4 ≤ (splitOnChar '|' line).length →
        (readProcessOutput s (line ++ ['\n'])).logText = s.logText ∧
        (readProcessOutput s (line ++ ['\n'])).rows
          = findAndUpdatetTableRow s.rows ((splitOnChar '|' line).getD 1 [])
              ((splitOnChar '|' line).getD 2 []) ((splitOnChar '|' line).getD 3 []) ∧
        (readProcessOutput s (line ++ ['\n'])).fileList = s.fileList) ∧
    (strStartsWith statusMarker line = true →
      (splitOnChar '|' line).length < 4 →
        readProcessOutput s (line ++ ['\n']) = s) ∧
    (strStartsWith statusMarker line = false →
        readProcessOutput s (line ++ ['\n'])
          = { s with logText := s.logText ++ line ++ ['\n'] }) ∧
    (∀ rows fp st m, (∀ r ∈ rows, r.path ≠ fp) →
        findAndUpdatetTableRow rows fp st m = rows) ∧
    (∀ pre r post fp st m, (∀ x ∈ pre, x.path ≠ fp) → r.path = fp →
        findAndUpdatetTableRow (pre ++ r :: post) fp st m
          = pre ++ { r with statusText := statusDisplayText st,
                            statusTip := m } :: post) := by
  have hs : readProcessOutput s (line ++ ['\n']) = processOutputLine s line := by
    unfold readProcessOutput
    rw [splitSkipEmpty_single_line hne hnl]
    rfl
  refine ⟨?_, ?_, ?_, ?_, ?_⟩
  · intro hpre hlen
    rw [hs]
    simp [processOutputLine, hpre, hlen]
  · intro hpre hlen
    rw [hs]
    simp [processOutputLine, hpre, Nat.not_le.mpr hlen]
  · intro hpre
    rw [hs]
    simp [processOutputLine, hpre]
  · intro rows fp st m h
    exact findAndUpdatetTableRow_no_match h st m
  · intro pre r post fp st m hp hrp
    exact findAndUpdatetTableRow_first_match hp hrp post st m

/-- C1 counterexample: the code drops a marker line with too few fields
silently, while the claim requires it to be appended to the visible log:
on `##STATUS##|onlyonefield` the state is fully unchanged and the log
does not gain the line. -/
theorem c1_counterexample :
    readProcessOutput mwEmpty (toL "##STATUS##|onlyonefield" ++ ['\n']) = mwEmpty ∧
    ¬ (readProcessOutput mwEmpty (toL "##STATUS##|onlyonefield" ++ ['\n'])).logText
        = mwEmpty.logText ++ toL "##STATUS##|onlyonefield" ++ ['\n'] := by
  decide

/-- C1 witness: a well-formed `SUCCESS` record for `/a/b.csv` produces no
log output. -/
theorem c1_witness :
    (readProcessOutput mwOneRow
        (toL "##STATUS##|/a/b.csv|SUCCESS|done" ++ ['\n'])).logText
      = mwOneRow.logText :=
  ((c1_protocol_dispatch mwOneRow (toL "##STATUS##|/a/b.csv|SUCCESS|done")
      (by decide) (by decide)).1 (by decide) (by decide)).1

/-! Helper lemmas about the stdin task data. -/

theorem taskListData_foldl_acc (tasks : List Str) :
    ∀ acc : Str, tasks.foldl (fun a t => a ++ t ++ ['\n']) acc
      = acc ++ tasks.foldl (fun a t => a ++ t ++ ['\n']) [] := by
  induction tasks with
  | nil => intro acc; simp
  | cons t rest ih =>
    intro acc
    simp only [List.foldl_cons]
    rw [ih (acc ++ t ++ ['\n']), ih ([] ++ t ++ ['\n'])]
    simp

theorem taskListData_append (l1 l2 : List Str) :
    taskListData (l1 ++ l2) = taskListData l1 ++ taskListData l2 := by
  have h : taskListData (l1 ++ l2)
      = List.foldl (fun acc t => acc ++ t ++ ['\n']) (taskListData l1) l2 := by
    unfold taskListData
    rw [List.foldl_append]
  rw [h, taskListData_foldl_acc l2 (taskListData l1)]
  rfl

theorem taskListData_single (t : Str) : taskListData [t] = t ++ ['\n'] := by
  simp [taskListData]

/-- A window with one checked row, writing output next to the sources. -/
def mwReady : AppState := { mwOneRow with outputToSource := true }

/-- C2: an accepted start does not write to the worker before the
started notification — the click emits no stdin write and no channel
close, and stashes the checked task list; the started notification then
emits exactly one write holding the task data followed immediately by
the channel close.  The last two conjuncts pin the data format down:
`taskListData` is concatenative over the task list and renders a single
task as its path followed by a newline, so the write is one path per
line, newline-terminated, in task-list order. -/
theorem c2_stdin_protocol (s : AppState) (appDir : Str)
    (hidle : s.isProcessing = false)
    (htasks : checkedTasks s ≠ [])
    (hout : s.outputToSource = true ∨ s.outputPath ≠ []) :
    (∀ d, UiAction.writeStdin d ∉ (on_startProcessButton_clicked s appDir).2) ∧
    UiAction.closeWriteChannel ∉ (on_startProcessButton_clicked s appDir).2 ∧
    ((on_startProcessButton_clicked s appDir).1).pendingTasks = checkedTasks s ∧
    (onProcessStarted (on_startProcessButton_clicked s appDir).1).2
      = [UiAction.writeStdin (taskListData (checkedTasks s)),
         UiAction.closeWriteChannel] ∧
    (∀ l1 l2 : List Str, taskListData (l1 ++ l2)
        = taskListData l1 ++ taskListData l2) ∧
    (∀ t : Str, taskListData [t] = t ++ ['\n']) := by
  have hcond : ¬ (s.outputToSource = false ∧ s.outputPath = []) := by
    rcases hout with h | h
    · intro hc
      rw [h] at hc
      simp at hc
    · intro hc
      exact h hc.2
  have hclick : on_startProcessButton_clicked s appDir
      = ({ s with isProcessing := true,
                  logText := toL "--- 开始处理 ---" ++ ['\n'],
                  processAlive := true,
                  pendingTasks := checkedTasks s },
         [UiAction.spawnProcess (programPath appDir)
            ([toL "--on-conflict", conflictPolicyArg s.conflictIndex]
              ++ (if s.outputToSource then []
                  else [toL "--output-dir", s.outputPath]))]) := by
    unfold on_startProcessButton_clicked
    rw [if_neg (by simp [hidle]), if_neg htasks, if_neg hcond]
  refine ⟨?_, ?_, ?_, ?_, taskListData_append, taskListData_single⟩
  · intro d
    rw [hclick]
    simp
  · rw [hclick]
    simp
  · rw [hclick]
  · rw [hclick]
    unfold onProcessStarted
    simp only [if_neg htasks]

/-- C2 witness: starting from a one-checked-row window, the started
notification emits the write of the task data then the channel close. -/
theorem c2_witness :
    (onProcessStarted (on_startProcessButton_clicked mwReady []).1).2
      = [UiAction.writeStdin (taskListData (checkedTasks mwReady)),
         UiAction.closeWriteChannel] :=
  ((c2_stdin_protocol mwReady [] (by decide) (by decide)
      (Or.inl (by decide))).2.2.2).1

/-- C3: with no session running, a start whose checked-task subset is
empty, or whose output directory is empty while output-to-source is off,
leaves the whole state (file set, rows, mode, session flags) untouched,
emits exactly one warning dialog, and spawns no process. -/
theorem c3_validation (s : AppState) (appDir : Str)
    (hidle : s.isProcessing = false)
    (hbad : checkedTasks s = [] ∨ (s.outputToSource = false ∧ s.outputPath = [])) :
    (on_startProcessButton_clicked s appDir).1 = s ∧
    (∃ t m, (on_startProcessButton_clicked s appDir).2
        = [UiAction.showWarning t m]) ∧
    (∀ prog args, UiAction.spawnProcess prog args
        ∉ (on_startProcessButton_clicked s appDir).2) := by
  by_cases ht : checkedTasks s = []
  · have hclick : on_startProcessButton_clicked s appDir
        = (s, [UiAction.showWarning (toL "没有任务")
                (toL "请至少勾选一个要处理的文件！")]) := by
      unfold on_startProcessButton_clicked
      rw [if_neg (by simp [hidle]), if_pos ht]
    rw [hclick]
    exact ⟨rfl, ⟨_, _, rfl⟩, by intro prog args; simp⟩
  · have hc : s.outputToSource = false ∧ s.outputPath = [] := hbad.resolve_left ht
    have hclick : on_startProcessButton_clicked s appDir
        = (s, [UiAction.showWarning (toL "输出未指定")
                (toL "请指定一个输出文件夹，或勾选“输出到源文件路径”！")]) := by
      unfold on_startProcessButton_clicked
      rw [if_neg (by simp [hidle]), if_neg ht, if_pos hc]
    rw [hclick]
    exact ⟨rfl, ⟨_, _, rfl⟩, by intro prog args; simp⟩

/-- C3 witness: a start click on the empty window changes nothing. -/
theorem c3_witness : (on_startProcessButton_clicked mwEmpty []).1 = mwEmpty :=
  (c3_validation mwEmpty [] (by decide) (Or.inl (by decide))).1

/-! Field-preservation lemmas for the mode-switch path. -/

theorem addFileToList_timerStart (s : AppState) (p : Str) :
    (addFileToList s p).timerStart = s.timerStart := by
  unfold addFileToList
  split <;> rfl

theorem addFileToList_isDirectoryMode (s : AppState) (p : Str) :
    (addFileToList s p).isDirectoryMode = s.isDirectoryMode := by
  unfold addFileToList
  split <;> rfl

theorem foldl_addFileToList_timerStart (l : List Str) :
    ∀ s : AppState, (l.foldl addFileToList s).timerStart = s.timerStart := by
  induction l with
  | nil => intro s; rfl
  | cons p rest ih =>
    intro s
    rw [List.foldl_cons, ih (addFileToList s p), addFileToList_timerStart]

theorem foldl_addFileToList_isDirectoryMode (l : List Str) :
    ∀ s : AppState, (l.foldl addFileToList s).isDirectoryMode = s.isDirectoryMode := by
  induction l with
  | nil => intro s; rfl
  | cons p rest ih =>
    intro s
    rw [List.foldl_cons, ih (addFileToList s p), addFileToList_isDirectoryMode]

theorem scanAndPopulateFiles_timerStart (s : AppState) (fs : Fs) (d : Str) :
    (scanAndPopulateFiles s fs d).timerStart = s.timerStart := by
  unfold scanAndPopulateFiles
  split
  · rfl
  · rw [foldl_addFileToList_timerStart]

theorem scanAndPopulateFiles_isDirectoryMode (s : AppState) (fs : Fs) (d : Str) :
    (scanAndPopulateFiles s fs d).isDirectoryMode = s.isDirectoryMode := by
  unfold scanAndPopulateFiles
  split
  · rfl
  · rw [foldl_addFileToList_isDirectoryMode]

theorem doModeSwitch_timerStart (s : AppState) (fs : Fs) (i : Bool) :
    (doModeSwitch s fs i).timerStart = s.timerStart := by
  unfold doModeSwitch
  split
  · rw [scanAndPopulateFiles_timerStart]
  · rfl

theorem handleModeChangeRequest_timerStart (s : AppState) (fs : Fs)
    (now : Nat) (y d : Bool) (h : ¬ now - s.timerStart < 300) :
    ((handleModeChangeRequest s fs now y d).1).timerStart = now := by
  unfold handleModeChangeRequest
  rw [if_neg h]
  simp only []
  split
  · split
    · rw [scanAndPopulateFiles_timerStart]
    · rfl
  · split
    · split
      · rfl
      · split <;> rw [doModeSwitch_timerStart]
    · rw [doModeSwitch_timerStart]

theorem handleModeChangeRequest_ignored (s : AppState) (fs : Fs) (now : Nat)
    (y d : Bool) (h : now - s.timerStart < 300) :
    handleModeChangeRequest s fs now y d = (s, false) := by
  unfold handleModeChangeRequest
  rw [if_pos h]

/-- C4, amended: debounce measured from the last accepted event, where
window construction (which starts the timer) counts as the initial
accepted event.  A request arriving less than 300ms after the last
accepted event is silently ignored — state unchanged, no dialog; an
accepted request restarts the clock at its own instant; an accepted
request on an empty list toggles the mode without a dialog; and any
further request less than 300ms after an accepted one is ignored
entirely, so two such requests yield exactly one state change. -/
theorem c4_debounce (s : AppState) (fs : Fs) (now : Nat) (y d : Bool) :
    (now - s.timerStart < 300 →
      handleModeChangeRequest s fs now y d = (s, false)) ∧
    (¬ now - s.timerStart < 300 →
      ((handleModeChangeRequest s fs now y d).1).timerStart = now) ∧
    (¬ now - s.timerStart < 300 → s.rows = [] →
      ((handleModeChangeRequest s fs now y d).1).isDirectoryMode
          = !s.isDirectoryMode ∧
      (handleModeChangeRequest s fs now y d).2 = false) ∧
    (¬ now - s.timerStart < 300 → ∀ now2 y2 d2, now2 - now < 300 →
      handleModeChangeRequest (handleModeChangeRequest s fs now y d).1 fs now2 y2 d2
        = ((handleModeChangeRequest s fs now y d).1, false)) := by
  refine ⟨handleModeChangeRequest_ignored s fs now y d,
    handleModeChangeRequest_timerStart s fs now y d, ?_, ?_⟩
  · intro h hrows
    unfold handleModeChangeRequest
    rw [if_neg h]
    simp only [hrows, List.length_nil, eq_self_iff_true, if_true]
    constructor
    · by_cases hc : (!s.isDirectoryMode) = true
      · rw [if_pos hc]
        exact scanAndPopulateFiles_isDirectoryMode _ fs _
      · rw [if_neg hc]
    · trivial
  · intro h now2 y2 d2 h2
    have ht := handleModeChangeRequest_timerStart s fs now y d h
    exact handleModeChangeRequest_ignored _ fs now2 y2 d2 (by rw [ht]; exact h2)

/-- C4 counterexample: with the window constructed at instant 0, a first
toggle request at 100ms — spaced at least 300ms after every previous
request, there being none — is silently ignored instead of taking
effect, and a second request at 350ms (only 250ms after the first) is
the one that takes effect: the claim's "requests spaced at least 300ms
apart each take effect" and "exactly one state change (the first)" both
fail on the code. -/
theorem c4_counterexample :
    handleModeChangeRequest mwEmpty fsNone 100 true false = (mwEmpty, false) ∧
    ¬ ((handleModeChangeRequest mwEmpty fsNone 100 true false).1.isDirectoryMode
        = !mwEmpty.isDirectoryMode) ∧
    (handleModeChangeRequest mwEmpty fsNone 350 true false).1.isDirectoryMode
        = !mwEmpty.isDirectoryMode := by
  decide

/-- C4 witness: a request 500ms after construction on an empty list is
accepted and toggles the mode. -/
theorem c4_witness :
    (handleModeChangeRequest mwEmpty fsNone 500 true false).1.isDirectoryMode
      = !mwEmpty.isDirectoryMode :=
  ((c4_debounce mwEmpty fsNone 500 true false).2.2.1 (by decide) (by decide)).1

/-- C5: with a non-empty file set and the don't-ask flag clear, a
debounce-accepted toggle request that the user declines changes nothing
but the debounce clock: mode, rows (hence every entry's status,
selection and message), the path list and the persistent don't-ask flag
are exactly as before, even when the dialog's "don't ask again" box was
checked. -/
theorem c5_decline_no_change (s : AppState) (fs : Fs) (now : Nat)
    (dontAskChecked : Bool) (hdeb : ¬ now - s.timerStart < 300)
    (hrows : s.rows ≠ []) (hask : s.dontAskOnModeChange = false) :
    handleModeChangeRequest s fs now false dontAskChecked
      = ({ s with timerStart := now }, true) := by
  unfold handleModeChangeRequest
  rw [if_neg hdeb]
  simp only [hask, hrows, List.length_eq_zero, Bool.not_false, eq_self_iff_true,
    if_true, if_false, ne_eq, not_false_eq_true]

/-- C5 witness: declining on the one-row window with the box checked
leaves everything but the debounce clock untouched. -/
theorem c5_witness :
    handleModeChangeRequest mwOneRow fsNone 300 false true
      = ({ mwOneRow with timerStart := 300 }, true) :=
  c5_decline_no_change mwOneRow fsNone 300 true (by decide) (by decide) (by decide)

theorem getD_map_row (f : Row → Row) : ∀ (l : List Row) (i : Nat),
    i < l.length → (l.map f).getD i dRow = f (l.getD i dRow) := by
  intro l
  induction l with
  | nil => intro i h; simp at h
  | cons x xs ih =>
    intro i h
    cases i with
    | zero => rfl
    | succ j =>
      simp only [List.map_cons, List.getD_cons_succ]
      exact ih j (by simpa using h)

/-- C6: when the worker terminates abnormally (the cancellation path),
the status-bar message is the dedicated cancelled text — distinct from
both the failure and the success reports of the normal-exit paths — the
log gains the cancelled banner, every row still showing the processing
text is forced to the cancelled text, every other row is left exactly as
reported, and afterwards the UI is unlocked and the process handle
released. -/
theorem c6_cancel_outcome (s : AppState) (code : Int) :
    (onProcessFinished s code true).statusBarMsg = toL "处理已由用户取消。" ∧
    (∀ s2 : AppState, ∀ c2 : Int, c2 ≠ 0 →
      (onProcessFinished s2 c2 false).statusBarMsg ≠ toL "处理已由用户取消。") ∧
    (∀ s2 : AppState,
      (onProcessFinished s2 0 false).statusBarMsg ≠ toL "处理已由用户取消。") ∧
    (onProcessFinished s code true).rows.length = s.rows.length ∧
    (∀ i, i < s.rows.length →
      ((s.rows.getD i dRow).statusText = processingText →
        (onProcessFinished s code true).rows.getD i dRow
          = { s.rows.getD i dRow with statusText := cancelledText }) ∧
      ((s.rows.getD i dRow).statusText ≠ processingText →
        (onProcessFinished s code true).rows.getD i dRow = s.rows.getD i dRow)) ∧
    (onProcessFinished s code true).isProcessing = false ∧
    (onProcessFinished s code true).processAlive = false ∧
    (onProcessFinished s code true).logText
      = s.logText ++ toL "\n--- 处理已取消 ---" ++ ['\n'] := by
  refine ⟨by simp [onProcessFinished], ?_, ?_, by simp [onProcessFinished], ?_,
    by simp [onProcessFinished], by simp [onProcessFinished],
    by simp [onProcessFinished]⟩
  · intro s2 c2 hc2
    simp [onProcessFinished, hc2]
    decide
  · intro s2
    simp [onProcessFinished]
    decide
  · intro i hi
    have hrows : (onProcessFinished s code true).rows
        = s.rows.map (fun r => if r.statusText = processingText then
            { r with statusText := cancelledText } else r) := by
      simp [onProcessFinished]
    rw [hrows, getD_map_row _ s.rows i hi]
    constructor
    · intro hp
      rw [if_pos hp]
    · intro hp
      rw [if_neg hp]

/-- A row mid-processing for the path `/a/b.csv`. -/
def rowProc : Row := { rowP with statusText := processingText }

/-- A window with one processing row and a live worker. -/
def mwProcessing : AppState :=
  { mwEmpty with rows := [rowProc], fileList := [toL "/a/b.csv"],
                 isProcessing := true, processAlive := true }

/-- C6 witness: on a crash exit, the one processing row is forced to the
cancelled text. -/
theorem c6_witness :
    (onProcessFinished mwProcessing 0 true).rows.getD 0 dRow
      = { mwProcessing.rows.getD 0 dRow with statusText := cancelledText } :=
  ((c6_cancel_outcome mwProcessing 0).2.2.2.2.1 0 (by decide)).1 (by decide)

/-- C7: on `FailedToStart` with a live handle the supervisor shows the
blocking critical dialog and unlocks the UI and releases the handle, and
every other process-error value does nothing.  The last three conjuncts
exhibit the divergence from the claim: the dialog text names
`main_processor.exe` and nowhere mentions `backend_engine.exe`, yet the
executable the supervisor actually attempts to launch always ends in
`backend_engine.exe` — the dialog does not name the attempted path. -/
theorem c7_failed_to_start :
    (∀ s : AppState, s.processAlive = true →
      onProcessError s ProcErr.failedToStart
        = ({ s with isProcessing := false, processAlive := false },
           [UiAction.showCritical (toL "启动失败") launchFailText])) ∧
    (∀ (s : AppState) (e : ProcErr), e ≠ ProcErr.failedToStart →
      onProcessError s e = (s, [])) ∧
    strContains launchFailText (toL "main_processor.exe") = true ∧
    strContains launchFailText (toL "backend_engine.exe") = false ∧
    (∀ appDir : Str, toL "backend_engine.exe" <:+ programPath appDir) := by
  refine ⟨?_, ?_, by decide, by decide, ?_⟩
  · intro s h
    unfold onProcessError
    rw [if_pos ⟨rfl, h⟩]
  · intro s e he
    unfold onProcessError
    rw [if_neg (fun hc => he hc.1)]
  · intro a
    refine ⟨a ++ toL "/backend_engine/", ?_⟩
    rw [List.append_assoc]
    unfold programPath
    congr 1

/-- C7 witness: a `Crashed` process error is ignored entirely. -/
theorem c7_witness :
    onProcessError mwProcessing ProcErr.crashed = (mwProcessing, []) :=
  (c7_failed_to_start).2.1 mwProcessing ProcErr.crashed (by decide)

/-- C9, amended: chunk boundaries are invisible only when they fall on
line boundaries.  If every delivered chunk is empty or newline-
terminated, processing the chunks one readiness notification at a time
yields exactly the state — status updates and visible log alike — of
processing the whole stream in a single chunk.  (The counterexample
shows the claim fails for a boundary inside a line: the parser splits
each chunk independently and keeps no carry-over buffer.) -/
theorem c9_chunking (chunks : List Str)
    (h : ∀ c ∈ chunks, c = [] ∨ c.getLast? = some '\n') :
    ∀ s : AppState,
      readProcessOutputChunks s chunks = readProcessOutput s chunks.flatten := by
  induction chunks with
  | nil => intro s; rfl
  | cons c rest ih =>
    intro s
    have hc := h c (List.mem_cons_self c rest)
    have hrest : ∀ x ∈ rest, x = [] ∨ x.getLast? = some '\n' :=
      fun x hx => h x (List.mem_cons_of_mem c hx)
    rcases hc with hc | hc
    · subst hc
      show readProcessOutputChunks (readProcessOutput s []) rest
          = readProcessOutput s (List.flatten ([] :: rest))
      rw [List.flatten_cons, List.nil_append]
      exact ih hrest (readProcessOutput s [])
    · show readProcessOutputChunks (readProcessOutput s c) rest
          = readProcessOutput s (List.flatten (c :: rest))
      rw [List.flatten_cons, readProcessOutput_append hc, ih hrest]

/-- C9 counterexample: the worker's single status record
`##STATUS##|/a/b.csv|SUCCESS|done\n` delivered split mid-line produces a
different table and a different log than the same bytes in one chunk:
the split delivery updates nothing and logs the tail fragment, the whole
line updates the row and logs nothing. -/
theorem c9_counterexample :
    readProcessOutputChunks mwOneRow
        [toL "##STATUS##|/a/b.csv|SUC", toL "CESS|done" ++ ['\n']]
      ≠ readProcessOutputChunks mwOneRow
        [toL "##STATUS##|/a/b.csv|SUCCESS|done" ++ ['\n']] := by
  decide

/-- C9 witness: two whole-line chunks equal their one-chunk delivery. -/
theorem c9_witness :
    readProcessOutputChunks mwOneRow [toL "hello\n", toL "world\n"]
      = readProcessOutput mwOneRow
          (List.flatten [toL "hello\n", toL "world\n"]) :=
  c9_chunking [toL "hello\n", toL "world\n"] (by decide) mwOneRow

theorem removeAllPaths_of_not_mem {l : List Str} {p : Str} (h : p ∉ l) :
    removeAllPaths l p = l := by
  unfold removeAllPaths
  apply List.filter_eq_self.mpr
  intro a ha
  simp only [decide_eq_true_eq]
  intro hap
  exact h (hap ▸ ha)

theorem removeAllPaths_append (l1 l2 : List Str) (p : Str) :
    removeAllPaths (l1 ++ l2) p = removeAllPaths l1 p ++ removeAllPaths l2 p := by
  unfold removeAllPaths
  exact List.filter_append _ _

theorem removeAllPaths_self_single (p : Str) : removeAllPaths [p] p = [] := by
  simp [removeAllPaths]

theorem removeLoop_spec : ∀ (rows : List Row) (pre : List Str),
    (pre ++ rows.map (fun r => r.path)).Nodup →
    removeLoop rows (pre ++ rows.map (fun r => r.path))
      = (rows.filter (fun r => !r.checked),
         pre ++ (rows.filter (fun r => !r.checked)).map (fun r => r.path)) := by
  intro rows
  induction rows with
  | nil => intro pre h; simp [removeLoop]
  | cons r rest ih =>
    intro pre h
    rw [List.map_cons, List.append_cons] at h ⊢
    have hih := ih (pre ++ [r.path]) h
    have hpnotpre : r.path ∉ pre := by
      have hnd : (pre ++ r.path :: rest.map (fun x => x.path)).Nodup := by
        rwa [← List.append_cons] at h
      have hd := List.disjoint_of_nodup_append hnd
      intro hmem
      exact hd hmem (by simp)
    have hpnotrest : r.path ∉ rest.map (fun x => x.path) := by
      have hnd : (pre ++ r.path :: rest.map (fun x => x.path)).Nodup := by
        rwa [← List.append_cons] at h
      have h2 := (List.nodup_append.mp hnd).2.1
      exact (List.nodup_cons.mp h2).1
    have hpnotfil : r.path ∉ (rest.filter (fun x => !x.checked)).map
        (fun x => x.path) := by
      intro hmem
      exact hpnotrest
        ((List.Sublist.map (fun x => x.path) (List.filter_sublist rest)).subset hmem)
    simp only [removeLoop]
    rw [hih]
    by_cases hc : r.checked
    · simp only [hc, if_true, List.filter_cons, Bool.not_true]
      rw [removeAllPaths_append, removeAllPaths_append,
        removeAllPaths_of_not_mem hpnotpre, removeAllPaths_self_single,
        removeAllPaths_of_not_mem hpnotfil]
      simp
    · simp only [Bool.not_eq_true] at hc
      simp only [hc, Bool.not_false, if_true, if_false, List.filter_cons,
        Bool.false_eq_true]
      simp

theorem addFileToList_TableInv (s : AppState) (p : Str) (h : TableInv s) :
    TableInv (addFileToList s p) := by
  unfold addFileToList
  by_cases hm : p ∈ s.fileList
  · rw [if_pos hm]
    exact h
  · rw [if_neg hm]
    obtain ⟨h1, h2⟩ := h
    constructor
    · simp [h1]
    · simp [List.nodup_append, h2, hm]

theorem foldl_addFileToList_TableInv (l : List Str) :
    ∀ s : AppState, TableInv s → TableInv (l.foldl addFileToList s) := by
  induction l with
  | nil => intro s h; exact h
  | cons p rest ih =>
    intro s h
    rw [List.foldl_cons]
    exact ih (addFileToList s p) (addFileToList_TableInv s p h)

theorem scanAndPopulateFiles_TableInv (s : AppState) (fs : Fs) (d : Str) :
    TableInv (scanAndPopulateFiles s fs d) := by
  unfold scanAndPopulateFiles
  split
  · exact ⟨rfl, List.nodup_nil⟩
  · exact foldl_addFileToList_TableInv _ _ ⟨rfl, List.nodup_nil⟩

theorem doModeSwitch_TableInv (s : AppState) (fs : Fs) (i : Bool) :
    TableInv (doModeSwitch s fs i) := by
  unfold doModeSwitch
  split
  · exact scanAndPopulateFiles_TableInv _ fs _
  · exact ⟨rfl, List.nodup_nil⟩

theorem handleModeChangeRequest_TableInv (s : AppState) (fs : Fs) (now : Nat)
    (y d : Bool) (h : TableInv s) :
    TableInv ((handleModeChangeRequest s fs now y d).1) := by
  unfold handleModeChangeRequest
  dsimp only
  split
  · exact h
  · split
    · split
      · exact scanAndPopulateFiles_TableInv _ fs _
      · exact h
    · split
      · split
        · exact h
        · exact doModeSwitch_TableInv _ fs _
      · exact doModeSwitch_TableInv _ fs _

theorem onRemoveSelectedClicked_TableInv (s : AppState) (h : TableInv s) :
    TableInv (onRemoveSelectedClicked s) := by
  obtain ⟨h1, h2⟩ := h
  have hnd : (([] : List Str) ++ s.rows.map (fun r => r.path)).Nodup := by
    rw [List.nil_append, ← h1]
    exact h2
  have hspec := removeLoop_spec s.rows [] hnd
  have hfl : s.fileList = [] ++ s.rows.map (fun r => r.path) := by
    rw [List.nil_append]
    exact h1
  simp only [onRemoveSelectedClicked]
  rw [hfl, hspec]
  constructor
  · simp
  · simp only [List.nil_append]
    exact List.Nodup.sublist
      (List.Sublist.map (fun r => r.path) (List.filter_sublist s.rows))
      (by rw [← h1]; exact h2)

theorem map_path_of_path_preserving (f : Row → Row)
    (hf : ∀ r, (f r).path = r.path) (l : List Row) :
    (l.map f).map (fun r => r.path) = l.map (fun r => r.path) := by
  induction l with
  | nil => rfl
  | cons r rest ih =>
    simp only [List.map_cons, hf r, ih]

theorem onSelectAllClicked_TableInv (s : AppState) (h : TableInv s) :
    TableInv (onSelectAllClicked s) := by
  obtain ⟨h1, h2⟩ := h
  unfold onSelectAllClicked
  dsimp only
  refine ⟨?_, h2⟩
  rw [map_path_of_path_preserving
    (fun r => { r with checked := s.rows.any (fun x => !x.checked) })
    (fun r => rfl) s.rows]
  exact h1

theorem onInvertSelectionClicked_TableInv (s : AppState) (h : TableInv s) :
    TableInv (onInvertSelectionClicked s) := by
  obtain ⟨h1, h2⟩ := h
  unfold onInvertSelectionClicked
  refine ⟨?_, h2⟩
  rw [map_path_of_path_preserving
    (fun r => { r with checked := !r.checked }) (fun r => rfl) s.rows]
  exact h1

theorem applyFileOp_TableInv (fs : Fs) (s : AppState) (op : FileOp)
    (h : TableInv s) : TableInv (applyFileOp fs s op) := by
  cases op with
  | add p => exact addFileToList_TableInv s p h
  | removeSelected => exact onRemoveSelectedClicked_TableInv s h
  | selectAll => exact onSelectAllClicked_TableInv s h
  | invertSelection => exact onInvertSelectionClicked_TableInv s h
  | scanDir d => exact scanAndPopulateFiles_TableInv s fs d
  | modeSwitch now y d => exact handleModeChangeRequest_TableInv s fs now y d h
  | statusUpdate p st m =>
    obtain ⟨h1, h2⟩ := h
    exact ⟨by rw [applyFileOp, findAndUpdatetTableRow_map_path]; exact h1, h2⟩

theorem applyFileOps_TableInv (fs : Fs) (ops : List FileOp) :
    ∀ s : AppState, TableInv s → TableInv (applyFileOps fs s ops) := by
  induction ops with
  | nil => intro s h; exact h
  | cons op rest ih =>
    intro s h
    exact ih (applyFileOp fs s op) (applyFileOp_TableInv fs s op h)

theorem count_one_of_nodup {p : Str} : ∀ {l : List Str},
    l.Nodup → p ∈ l → l.count p = 1 := by
  intro l
  induction l with
  | nil => intro _ hm; simp at hm
  | cons x xs ih =>
    intro hn hm
    rw [List.count_cons]
    rcases List.mem_cons.mp hm with he | hm2
    · subst he
      have hx : p ∉ xs := (List.nodup_cons.mp hn).1
      rw [List.count_eq_zero.mpr hx]
      simp
    · have hne : p ≠ x := by
        intro he
        subst he
        exact (List.nodup_cons.mp hn).1 hm2
      rw [ih (List.nodup_cons.mp hn).2 hm2]
      have hxp : ¬ x = p := fun he => hne he.symm
      simp [hxp]

/-- C8: across any sequence of file-set operations (adds from dialog,
drag-drop or scan items, remove-selected, bulk selection changes,
directory scans, mode switches, status updates) started from a state
satisfying the table invariant, the table's path column and the internal
path list stay duplicate-free; adding a present path is a no-op leaving
exactly one entry for it, and adding a new path appends exactly one
checked pending row and its path. -/
theorem c8_unique_paths (fs : Fs) (s : AppState) (ops : List FileOp) (p : Str)
    (h : TableInv s) :
    ((applyFileOps fs s ops).rows.map (fun r => r.path)).Nodup ∧
    ((applyFileOps fs s ops).fileList).Nodup ∧
    (p ∈ s.fileList → addFileToList s p = s ∧ s.fileList.count p = 1) ∧
    (p ∉ s.fileList →
      (addFileToList s p).rows = s.rows
          ++ [{ checked := true, statusText := pendingText, statusTip := [],
                fname := fileNameOf p, path := p }] ∧
      (addFileToList s p).fileList = s.fileList ++ [p] ∧
      (addFileToList s p).fileList.count p = 1) := by
  obtain ⟨i1, i2⟩ := applyFileOps_TableInv fs ops s h
  refine ⟨by rw [← i1]; exact i2, i2, ?_, ?_⟩
  · intro hm
    constructor
    · unfold addFileToList
      rw [if_pos hm]
    · exact count_one_of_nodup h.2 hm
  · intro hm
    unfold addFileToList
    rw [if_neg hm]
    refine ⟨rfl, rfl, ?_⟩
    show (s.fileList ++ [p]).count p = 1
    rw [List.count_append, List.count_eq_zero.mpr hm]
    simp

/-- C10: the representation invariant of the table — `m_fileList`
equals, element for element in order, the path column of the displayed
rows — holds after any sequence of file-set operations from any state
satisfying it, and it holds of every freshly cleared window. -/
theorem c10_list_mirrors_table (fs : Fs) (s : AppState) (ops : List FileOp)
    (h : TableInv s) :
    (applyFileOps fs s ops).fileList
      = (applyFileOps fs s ops).rows.map (fun r => r.path) ∧
    (∀ s0 : AppState, s0.rows = [] → s0.fileList = [] → TableInv s0) := by
  refine ⟨(applyFileOps_TableInv fs ops s h).1, ?_⟩
  intro s0 h1 h2
  constructor
  · rw [h1, h2]
    rfl
  · rw [h2]
    exact List.nodup_nil

/-- C8 witness: adding `/a/b.csv` twice to the empty window leaves a
duplicate-free path column. -/
theorem c8_witness :
    ((applyFileOps fsNone mwEmpty
        [FileOp.add (toL "/a/b.csv"), FileOp.add (toL "/a/b.csv")]).rows.map
      (fun r => r.path)).Nodup :=
  (c8_unique_paths fsNone mwEmpty
    [FileOp.add (toL "/a/b.csv"), FileOp.add (toL "/a/b.csv")]
    (toL "/a/b.csv") (by decide)).1

/-- C10 witness: after an add and a remove-selected on the one-row
window, the path list still mirrors the path column. -/
theorem c10_witness :
    (applyFileOps fsNone mwOneRow
        [FileOp.add (toL "/c/d.csv"), FileOp.removeSelected]).fileList
      = (applyFileOps fsNone mwOneRow
          [FileOp.add (toL "/c/d.csv"), FileOp.removeSelected]).rows.map
        (fun r => r.path) :=
  (c10_list_mirrors_table fsNone mwOneRow
    [FileOp.add (toL "/c/d.csv"), FileOp.removeSelected] (by decide)).1
